import Mathlib

/-
Verification of the id-partition-simulator repository.

The development shallowly embeds the Go program in `src/main.go`:
the 32-bit mixing hash (`hash`, `rotateLeft`), the decimal field
parsing performed with `strconv.ParseInt`, and the `ProcessCSV`
simulation engine (bounded partition accumulators, outlier
filtering, multi-iteration accumulation, and final error
classification).  Machine integers are modelled as `Nat`/`Int`
with explicit reduction modulo `2 ^ 32` (Go `uint32`) and
wraparound modulo `2 ^ 64` (Go `int64`).
-/

namespace IdSim

/-! ## 32-bit arithmetic and the partition hash -/

/-- `2 ^ 32`, the modulus of Go `uint32` arithmetic. -/
def M32 : Nat := 4294967296

/-- Go `rotateLeft(x, k) = (x << k) | (x >> (32 - k))` on `uint32`
(`src/main.go` lines 273-275).  The left shift wraps modulo `2 ^ 32`. -/
def rotateLeft (x k : Nat) : Nat := ((x <<< k) % M32) ||| (x >>> (32 - k))

/-- Go `uint32` subtraction `a - b` with silent wraparound. -/
def sub32 (a b : Nat) : Nat := (a + (M32 - b % M32)) % M32

/-- The mixing hash of `src/main.go` lines 248-271, a transliteration of
Postgres `hash_bytes_uint32`.  Each mutation of the Go locals `a b c`
becomes a fresh `let`. -/
def hash (k : Nat) : Nat :=
  let a0 := (0x9e3779b9 + 4 + 3923095) % M32
  let b0 := a0
  let c0 := a0
  let a1 := (a0 + k) % M32
  let c1 := c0 ^^^ b0
  let c2 := sub32 c1 (rotateLeft b0 14)
  let a2 := a1 ^^^ c2
  let a3 := sub32 a2 (rotateLeft c2 11)
  let b1 := b0 ^^^ a3
  let b2 := sub32 b1 (rotateLeft a3 25)
  let c3 := c2 ^^^ b2
  let c4 := sub32 c3 (rotateLeft b2 16)
  let a4 := a3 ^^^ c4
  let a5 := sub32 a4 (rotateLeft c4 4)
  let b3 := b2 ^^^ a5
  let b4 := sub32 b3 (rotateLeft a5 14)
  let c5 := c4 ^^^ b4
  let c6 := sub32 c5 (rotateLeft b4 24)
  c6

/-- Modelled from the spec (section 4.1): the golden-ratio constant. -/
def goldenRatioConstant : Nat := 0x9e3779b9

/-- Modelled from the spec (section 4.1): the fixed length constant. -/
def fixedLengthConstant : Nat := 4

/-- Modelled from the spec (section 4.1): the fixed salt constant. -/
def fixedSaltConstant : Nat := 3923095

/-- Modelled from the spec (section 4.1): `rotl` is a 32-bit circular
left rotation. -/
def rotl (x k : Nat) : Nat := rotateLeft x k

/-- Modelled from the spec (section 4.1): initialize `a = b = c = seed`
with `seed = golden_ratio_constant + fixed_length_constant +
fixed_salt_constant`, fold the key into `a` by addition, run the quoted
mixing sequence (`c ^= b; c -= rotl(b,14); ...; c -= rotl(b,24)`), and
return `c`; all arithmetic unsigned 32-bit with silent wraparound.
The shadowing `let`s mirror the spec's in-place updates of `a b c`. -/
def hashSpec (key : Nat) : Nat :=
  let seed := (goldenRatioConstant + fixedLengthConstant + fixedSaltConstant) % M32
  let a := seed
  let b := seed
  let c := seed
  let a := (a + key) % M32
  let c := c ^^^ b
  let c := sub32 c (rotl b 14)
  let a := a ^^^ c
  let a := sub32 a (rotl c 11)
  let b := b ^^^ a
  let b := sub32 b (rotl a 25)
  let c := c ^^^ b
  let c := sub32 c (rotl b 16)
  let a := a ^^^ c
  let a := sub32 a (rotl c 4)
  let b := b ^^^ a
  let b := sub32 b (rotl a 14)
  let c := c ^^^ b
  let c := sub32 c (rotl b 24)
  c

lemma sub32_lt (a b : Nat) : sub32 a b < M32 := Nat.mod_lt _ (by decide)

lemma hash_lt (k : Nat) : hash k < M32 := sub32_lt _ _

/-- The partition index computed at `src/main.go` line 193:
`hash(documentID) % uint32(config.partitions)`.  The conversion of the
Go `int` partition count to `uint32` truncates modulo `2 ^ 32`.
Caution: Go panics with a division by zero when `uint32(partitions)`
is 0, i.e. when the (64-bit) partition count is a positive multiple of
`2 ^ 32`; this total function instead returns `hash k` there (Lean's
`x % 0 = x`).  `partIdx?` below makes that panic explicit; this total
version is what the engine uses, and is meaningful only on the
non-panicking divisors. -/
def partIdx (k P : Nat) : Nat := hash k % (P % M32)

/-- The same computation with Go's panic made explicit: `none` exactly
when `uint32(partitions) = 0` and line 193 would abort the program with
a runtime division by zero, `some (hash k % uint32 P)` otherwise. -/
def partIdx? (k P : Nat) : Option Nat :=
  if P % M32 = 0 then none else some (hash k % (P % M32))

/-- In the total model, the index is below `P` for every `P ≥ 1` —
including the divisor-zero case, where the real program panics instead
(there `partIdx k P = hash k < 2 ^ 32 ≤ P`).  Used for the engine
invariants, which concern runs the program actually executes. -/
lemma partIdx_lt (k P : Nat) (h : 1 ≤ P) : partIdx k P < P := by
  by_cases h0 : P % M32 = 0
  · have hdvd : M32 ∣ P := Nat.dvd_of_mod_eq_zero h0
    have hle : M32 ≤ P := Nat.le_of_dvd (by omega) hdvd
    have : partIdx k P = hash k := by
      unfold partIdx
      rw [h0, Nat.mod_zero]
    rw [this]
    exact lt_of_lt_of_le (hash_lt k) hle
  · exact lt_of_lt_of_le (Nat.mod_lt _ (Nat.pos_of_ne_zero h0)) (Nat.mod_le P M32)

/-! ## Go `int64` arithmetic and `strconv.ParseInt` -/

/-- `2 ^ 64` as an integer, the modulus of Go `int64` arithmetic. -/
def M64 : Int := 18446744073709551616

/-- Go signed 64-bit wraparound: reduce into `[-2 ^ 63, 2 ^ 63)`. -/
def wrap64 (x : Int) : Int := (x + 9223372036854775808) % M64 - 9223372036854775808

lemma wrap64_emod (x : Int) : wrap64 x % M64 = x % M64 := by
  unfold wrap64 M64
  omega

/-- Accumulator pass of Go `strconv.ParseUint` for base 10: every
character must be a decimal digit. -/
def digitsVal : List Char → Nat → Option Nat
  | [], acc => some acc
  | c :: cs, acc =>
    if ('0' ≤ c ∧ c ≤ '9') then digitsVal cs (acc * 10 + (c.toNat - '0'.toNat)) else none

/-- Decimal value of a digit string; `none` on an empty string or any
non-digit character (as in Go `strconv.ParseUint(s, 10, _)`). -/
def digitsToNat? (cs : List Char) : Option Nat :=
  match cs with
  | [] => none
  | _ => digitsVal cs 0

/-- Range check of Go `strconv.ParseInt`: a signed `bits`-wide result
must lie in `[-2^(bits-1), 2^(bits-1)-1]`; out of range is a range
error, which the caller treats like any parse failure. -/
def rangeCheck (v : Int) (bits : Nat) : Option Int :=
  if -(2 ^ (bits - 1)) ≤ v ∧ v ≤ 2 ^ (bits - 1) - 1 then some v else none

/-- Go `strconv.ParseInt(s, 10, bits)`: an optional single leading `+`
or `-`, then a nonempty run of decimal digits, then the signed range
check; `none` on an empty string, a stray character, or an
out-of-range value. -/
def parseGoInt (s : String) (bits : Nat) : Option Int :=
  match s.toList with
  | [] => none
  | c :: cs =>
    if c = '-' then
      match digitsToNat? cs with
      | none => none
      | some n => rangeCheck (-(n : Int)) bits
    else if c = '+' then
      match digitsToNat? cs with
      | none => none
      | some n => rangeCheck (n : Int) bits
    else
      match digitsToNat? (c :: cs) with
      | none => none
      | some n => rangeCheck (n : Int) bits

/-- Go `uint32(i)` for `i : int64`: truncation to the low 32 bits,
i.e. the two's-complement reinterpretation of `i` modulo `2 ^ 32`. -/
def toUInt32 (i : Int) : Nat := (i % (M32 : Int)).toNat

/-! ## The simulation engine (`ProcessCSV`, `src/main.go` lines 104-245) -/

/-- One bounded accumulator (`Partition` struct of `src/main.go`). -/
structure Partition where
  current : Int
  max : Int
  errored : Bool
deriving Repr, DecidableEq

/-- The configuration fields of `Config` consumed by `ProcessCSV`
(file handle and progress writer are I/O collaborators and carry no
engine state). -/
structure Config where
  partitions : Nat
  max : Int
  min : Int
  iterations : Nat
  outlier : Int
deriving Repr

/-- The aggregate `Result` struct of `src/main.go`. -/
structure Result where
  totalDocuments : Int
  totalIDs : Int
  partitionCounts : List Int
deriving Repr, DecidableEq

/-- One CSV data row: the raw text of `record[0]` (DocumentID) and
`record[1]` (count). -/
def Row : Type := String × String

/-- The mutable run state of `ProcessCSV`.  `parts` models the
`partitionList` slice and `partitionCounts` the `result.partitionCounts`
slice, both as total functions out of the index (only indices below
`Config.partitions` are ever read or written).  `outlierNotices` models
the `pinnedMessages` appended for first-time outliers, as structured
`(documentID, count, partitionIndex)` triples.  The `ghost` fields are
specification-only instrumentation: they are written alongside the real
updates and never influence control flow or any other field. -/
structure EngineState where
  parts : Nat → Partition
  totalDocuments : Int
  totalIDs : Int
  partitionCounts : Nat → Int
  erroredPartitions : Nat
  loggedOutliers : Nat → Bool
  outlierNotices : List (Nat × Int × Nat)
  ghostAdmitted : Nat → Bool
  ghostDropped : Int
  ghostOutlier : Int

/-- Initial state (`src/main.go` lines 105-136): every partition starts
at `current = min` with `errored = false`; `partitionCounts` is a Go
`make([]int64, n)` and therefore starts at `0`, not `min`. -/
def initState (cfg : Config) : EngineState :=
  { parts := fun _ => { current := cfg.min, max := cfg.max, errored := false }
    totalDocuments := 0
    totalIDs := 0
    partitionCounts := fun _ => 0
    erroredPartitions := 0
    loggedOutliers := fun _ => false
    outlierNotices := []
    ghostAdmitted := fun _ => false
    ghostDropped := 0
    ghostOutlier := 0 }

/-- Lines 185-186: `result.totalDocuments++; result.totalIDs += count`
(Go `int64` arithmetic, hence wrapped). -/
def bumpCounters (st : EngineState) (count : Int) : EngineState :=
  { st with
    totalDocuments := wrap64 (st.totalDocuments + 1)
    totalIDs := wrap64 (st.totalIDs + count) }

/-- Processing of one successfully parsed record (`src/main.go` lines
185-220): bump the counters, compute the partition index, apply the
outlier check (`count > outlier && !loggedOutliers[documentID]`), and
otherwise update the targeted partition unless it is errored. -/
def processParsed (cfg : Config) (st : EngineState) (documentID : Nat) (count : Int) :
    EngineState :=
  if count > cfg.outlier ∧ st.loggedOutliers documentID = false then
    { bumpCounters st count with
      outlierNotices := st.outlierNotices ++ [(documentID, count, partIdx documentID cfg.partitions)]
      loggedOutliers := Function.update st.loggedOutliers documentID true
      ghostOutlier := st.ghostOutlier + count }
  else if (st.parts (partIdx documentID cfg.partitions)).errored = true then
    { bumpCounters st count with ghostDropped := st.ghostDropped + count }
  else if wrap64 ((st.parts (partIdx documentID cfg.partitions)).current + count) >
      (st.parts (partIdx documentID cfg.partitions)).max then
    { bumpCounters st count with
      parts := Function.update st.parts (partIdx documentID cfg.partitions)
        { current := (st.parts (partIdx documentID cfg.partitions)).current
          max := (st.parts (partIdx documentID cfg.partitions)).max
          errored := true }
      erroredPartitions := st.erroredPartitions + 1
      ghostDropped := st.ghostDropped + count }
  else
    { bumpCounters st count with
      parts := Function.update st.parts (partIdx documentID cfg.partitions)
        { current := wrap64 ((st.parts (partIdx documentID cfg.partitions)).current + count)
          max := (st.parts (partIdx documentID cfg.partitions)).max
          errored := false }
      partitionCounts := Function.update st.partitionCounts (partIdx documentID cfg.partitions)
        (wrap64 ((st.parts (partIdx documentID cfg.partitions)).current + count))
      ghostAdmitted := Function.update st.ghostAdmitted (partIdx documentID cfg.partitions) true }

/-- Processing of one raw record (`src/main.go` lines 172-220): parse
`record[0]` as a 32-bit integer and `record[1]` as a 64-bit integer;
either failure skips the record entirely; on success the key is
truncated to `uint32` and the record is processed. -/
def processRecord (cfg : Config) (st : EngineState) (r : Row) : EngineState :=
  match parseGoInt r.1 32 with
  | none => st
  | some i =>
    match parseGoInt r.2 64 with
    | none => st
    | some count => processParsed cfg st (toUInt32 i) count

/-- One iteration's record loop (`src/main.go` lines 157-221): records
are consumed in order; when a clamp raises `erroredPartitions` to
`config.partitions` the loop `break`s immediately (the remaining rows of
this iteration only are skipped). -/
def runRecords (cfg : Config) : EngineState → List Row → EngineState
  | st, [] => st
  | st, r :: rs =>
    if (processRecord cfg st r).erroredPartitions = cfg.partitions ∧
        st.erroredPartitions ≠ cfg.partitions then processRecord cfg st r
    else runRecords cfg (processRecord cfg st r) rs

/-- The iteration loop (`src/main.go` line 138): the stream is
re-scanned from the start for each of `config.iterations` passes. -/
def runIterations (cfg : Config) (rows : List Row) : Nat → EngineState → EngineState
  | 0, st => st
  | Nat.succ n, st => runIterations cfg rows n (runRecords cfg st rows)

/-- The engine state after a full run. -/
def finalState (cfg : Config) (rows : List Row) : EngineState :=
  runIterations cfg rows cfg.iterations (initState cfg)

/-- The `Result` assembled from the final state. -/
def resultOf (cfg : Config) (st : EngineState) : Result :=
  { totalDocuments := st.totalDocuments
    totalIDs := st.totalIDs
    partitionCounts := (List.range cfg.partitions).map st.partitionCounts }

/-- The error classification of `src/main.go` lines 237-244, checked in
source order. -/
def finalError (cfg : Config) (st : EngineState) : Option String :=
  if st.erroredPartitions = cfg.partitions then
    some ("all partitions have exceeded their maximum value")
  else if st.erroredPartitions = 1 then
    some ("1 partition exceeded its maximum value")
  else if 0 < st.erroredPartitions then
    some (toString st.erroredPartitions ++ " partitions exceeded their maximum value")
  else none

/-- `ProcessCSV` on a list of parsed-off-the-wire rows (header already
discarded, stream I/O faults out of scope): the `Result` and the error
value returned at `src/main.go` lines 237-244. -/
def ProcessCSV (cfg : Config) (rows : List Row) : Result × Option String :=
  (resultOf cfg (finalState cfg rows), finalError cfg (finalState cfg rows))

/-! ## Reachability and generic preservation -/

/-- `EngineSteps cfg st st'` holds when `st'` arises from `st` by
processing finitely many records.  Every state the engine passes
through during a run — including mid-iteration states, states at an
early `break`, and states at iteration boundaries — is related to its
predecessors by this relation, since record processing is the only
state change the engine performs. -/
inductive EngineSteps (cfg : Config) : EngineState → EngineState → Prop
  | refl (st : EngineState) : EngineSteps cfg st st
  | tail {st st' : EngineState} (r : Row) (h : EngineSteps cfg st st') :
      EngineSteps cfg st (processRecord cfg st' r)

lemma EngineSteps.trans {cfg : Config} {a b c : EngineState}
    (h1 : EngineSteps cfg a b) (h2 : EngineSteps cfg b c) : EngineSteps cfg a c := by
  induction h2 with
  | refl => exact h1
  | tail r _ ih => exact EngineSteps.tail r ih

lemma steps_runRecords (cfg : Config) (rows : List Row) (st : EngineState) :
    EngineSteps cfg st (runRecords cfg st rows) := by
  induction rows generalizing st with
  | nil => exact EngineSteps.refl st
  | cons r rs ih =>
    unfold runRecords
    split
    · exact EngineSteps.tail r (EngineSteps.refl st)
    · exact EngineSteps.trans (EngineSteps.tail r (EngineSteps.refl st)) (ih _)

lemma steps_runIterations (cfg : Config) (rows : List Row) (n : Nat) (st : EngineState) :
    EngineSteps cfg st (runIterations cfg rows n st) := by
  induction n generalizing st with
  | zero => exact EngineSteps.refl st
  | succ m ih =>
    exact EngineSteps.trans (steps_runRecords cfg rows st) (ih _)

lemma steps_finalState (cfg : Config) (rows : List Row) :
    EngineSteps cfg (initState cfg) (finalState cfg rows) :=
  steps_runIterations cfg rows cfg.iterations (initState cfg)

/-- Any state property preserved by single-record processing is
preserved along `EngineSteps`. -/
lemma steps_preserve {cfg : Config} (Q : EngineState → Prop)
    (hQ : ∀ st r, Q st → Q (processRecord cfg st r)) :
    ∀ {st st'}, EngineSteps cfg st st' → Q st → Q st' := by
  intro st st' h hst
  induction h with
  | refl => exact hst
  | tail r _ ih => exact hQ _ r ih

/-! ## Branch characterizations of `processParsed` -/

lemma pp_outlier (cfg : Config) (st : EngineState) (k : Nat) (w : Int)
    (hA : w > cfg.outlier ∧ st.loggedOutliers k = false) :
    processParsed cfg st k w =
    { st with
      totalDocuments := wrap64 (st.totalDocuments + 1)
      totalIDs := wrap64 (st.totalIDs + w)
      outlierNotices := st.outlierNotices ++ [(k, w, partIdx k cfg.partitions)]
      loggedOutliers := Function.update st.loggedOutliers k true
      ghostOutlier := st.ghostOutlier + w } := by
  unfold processParsed bumpCounters
  rw [if_pos hA]

lemma pp_dropped (cfg : Config) (st : EngineState) (k : Nat) (w : Int)
    (hA : ¬(w > cfg.outlier ∧ st.loggedOutliers k = false))
    (hB : (st.parts (partIdx k cfg.partitions)).errored = true) :
    processParsed cfg st k w =
    { st with
      totalDocuments := wrap64 (st.totalDocuments + 1)
      totalIDs := wrap64 (st.totalIDs + w)
      ghostDropped := st.ghostDropped + w } := by
  unfold processParsed bumpCounters
  rw [if_neg hA, if_pos hB]

lemma pp_clamp (cfg : Config) (st : EngineState) (k : Nat) (w : Int)
    (hA : ¬(w > cfg.outlier ∧ st.loggedOutliers k = false))
    (hB : ¬(st.parts (partIdx k cfg.partitions)).errored = true)
    (hC : wrap64 ((st.parts (partIdx k cfg.partitions)).current + w) >
      (st.parts (partIdx k cfg.partitions)).max) :
    processParsed cfg st k w =
    { st with
      totalDocuments := wrap64 (st.totalDocuments + 1)
      totalIDs := wrap64 (st.totalIDs + w)
      parts := Function.update st.parts (partIdx k cfg.partitions)
        { current := (st.parts (partIdx k cfg.partitions)).current
          max := (st.parts (partIdx k cfg.partitions)).max
          errored := true }
      erroredPartitions := st.erroredPartitions + 1
      ghostDropped := st.ghostDropped + w } := by
  unfold processParsed bumpCounters
  rw [if_neg hA, if_neg hB, if_pos hC]

lemma pp_accept (cfg : Config) (st : EngineState) (k : Nat) (w : Int)
    (hA : ¬(w > cfg.outlier ∧ st.loggedOutliers k = false))
    (hB : ¬(st.parts (partIdx k cfg.partitions)).errored = true)
    (hC : ¬(wrap64 ((st.parts (partIdx k cfg.partitions)).current + w) >
      (st.parts (partIdx k cfg.partitions)).max)) :
    processParsed cfg st k w =
    { st with
      totalDocuments := wrap64 (st.totalDocuments + 1)
      totalIDs := wrap64 (st.totalIDs + w)
      parts := Function.update st.parts (partIdx k cfg.partitions)
        { current := wrap64 ((st.parts (partIdx k cfg.partitions)).current + w)
          max := (st.parts (partIdx k cfg.partitions)).max
          errored := false }
      partitionCounts := Function.update st.partitionCounts (partIdx k cfg.partitions)
        (wrap64 ((st.parts (partIdx k cfg.partitions)).current + w))
      ghostAdmitted := Function.update st.ghostAdmitted (partIdx k cfg.partitions) true } := by
  unfold processParsed bumpCounters
  rw [if_neg hA, if_neg hB, if_neg hC]

lemma processParsed_totalDocuments (cfg : Config) (st : EngineState) (k : Nat) (w : Int) :
    (processParsed cfg st k w).totalDocuments = wrap64 (st.totalDocuments + 1) := by
  by_cases hA : w > cfg.outlier ∧ st.loggedOutliers k = false
  · rw [pp_outlier cfg st k w hA]
  · by_cases hB : (st.parts (partIdx k cfg.partitions)).errored = true
    · rw [pp_dropped cfg st k w hA hB]
    · by_cases hC : wrap64 ((st.parts (partIdx k cfg.partitions)).current + w) >
        (st.parts (partIdx k cfg.partitions)).max
      · rw [pp_clamp cfg st k w hA hB hC]
      · rw [pp_accept cfg st k w hA hB hC]

lemma processParsed_totalIDs (cfg : Config) (st : EngineState) (k : Nat) (w : Int) :
    (processParsed cfg st k w).totalIDs = wrap64 (st.totalIDs + w) := by
  by_cases hA : w > cfg.outlier ∧ st.loggedOutliers k = false
  · rw [pp_outlier cfg st k w hA]
  · by_cases hB : (st.parts (partIdx k cfg.partitions)).errored = true
    · rw [pp_dropped cfg st k w hA hB]
    · by_cases hC : wrap64 ((st.parts (partIdx k cfg.partitions)).current + w) >
        (st.parts (partIdx k cfg.partitions)).max
      · rw [pp_clamp cfg st k w hA hB hC]
      · rw [pp_accept cfg st k w hA hB hC]

/-- An errored partition is never touched again by record processing:
its whole `Partition` record (flag and `current` value) is preserved. -/
lemma processParsed_frozen (cfg : Config) (st : EngineState) (k : Nat) (w : Int) (i : Nat)
    (he : (st.parts i).errored = true) :
    (processParsed cfg st k w).parts i = st.parts i := by
  by_cases hA : w > cfg.outlier ∧ st.loggedOutliers k = false
  · rw [pp_outlier cfg st k w hA]
  · by_cases hB : (st.parts (partIdx k cfg.partitions)).errored = true
    · rw [pp_dropped cfg st k w hA hB]
    · by_cases hC : wrap64 ((st.parts (partIdx k cfg.partitions)).current + w) >
        (st.parts (partIdx k cfg.partitions)).max
      · rw [pp_clamp cfg st k w hA hB hC]
        rcases eq_or_ne i (partIdx k cfg.partitions) with hi | hi
        · subst hi
          exact absurd he hB
        · simp only [Function.update_noteq hi]
      · rw [pp_accept cfg st k w hA hB hC]
        rcases eq_or_ne i (partIdx k cfg.partitions) with hi | hi
        · subst hi
          exact absurd he hB
        · simp only [Function.update_noteq hi]

lemma processRecord_frozen (cfg : Config) (st : EngineState) (r : Row) (i : Nat)
    (he : (st.parts i).errored = true) :
    (processRecord cfg st r).parts i = st.parts i := by
  unfold processRecord
  rcases parseGoInt r.1 32 with _ | v
  · rfl
  · rcases parseGoInt r.2 64 with _ | w
    · rfl
    · exact processParsed_frozen cfg st (toUInt32 v) w i he

/-! ## Capacity invariant (claim C6) -/

/-- Every non-errored partition respects its capacity. -/
def PartInv (st : EngineState) : Prop :=
  ∀ i, (st.parts i).errored = false → (st.parts i).current ≤ (st.parts i).max

lemma processParsed_partInv (cfg : Config) (st : EngineState) (k : Nat) (w : Int)
    (h : PartInv st) : PartInv (processParsed cfg st k w) := by
  intro i
  by_cases hA : w > cfg.outlier ∧ st.loggedOutliers k = false
  · rw [pp_outlier cfg st k w hA]
    exact h i
  · by_cases hB : (st.parts (partIdx k cfg.partitions)).errored = true
    · rw [pp_dropped cfg st k w hA hB]
      exact h i
    · by_cases hC : wrap64 ((st.parts (partIdx k cfg.partitions)).current + w) >
        (st.parts (partIdx k cfg.partitions)).max
      · rw [pp_clamp cfg st k w hA hB hC]
        rcases eq_or_ne i (partIdx k cfg.partitions) with hi | hi
        · subst hi
          intro hf
          simp at hf
        · simp only [Function.update_noteq hi]
          exact h i
      · rw [pp_accept cfg st k w hA hB hC]
        rcases eq_or_ne i (partIdx k cfg.partitions) with hi | hi
        · subst hi
          simp only [Function.update_same]
          intro _
          show wrap64 ((st.parts (partIdx k cfg.partitions)).current + w) ≤
            (st.parts (partIdx k cfg.partitions)).max
          omega
        · simp only [Function.update_noteq hi]
          exact h i

lemma processRecord_partInv (cfg : Config) (st : EngineState) (r : Row)
    (h : PartInv st) : PartInv (processRecord cfg st r) := by
  unfold processRecord
  rcases parseGoInt r.1 32 with _ | v
  · exact h
  · rcases parseGoInt r.2 64 with _ | w
    · exact h
    · exact processParsed_partInv cfg st (toUInt32 v) w h

/-! ## Counts-tracking invariant (claims C3 and C9) -/

/-- `result.partitionCounts[i]` holds the last admitted `newValue` of
partition `i`, i.e. its `current` value once a record was admitted
there, and its `make`-time zero otherwise. -/
def CountsInv (st : EngineState) : Prop :=
  ∀ i, st.partitionCounts i =
    (if st.ghostAdmitted i = true then (st.parts i).current else 0)

lemma processParsed_countsInv (cfg : Config) (st : EngineState) (k : Nat) (w : Int)
    (h : CountsInv st) : CountsInv (processParsed cfg st k w) := by
  intro i
  by_cases hA : w > cfg.outlier ∧ st.loggedOutliers k = false
  · rw [pp_outlier cfg st k w hA]
    exact h i
  · by_cases hB : (st.parts (partIdx k cfg.partitions)).errored = true
    · rw [pp_dropped cfg st k w hA hB]
      exact h i
    · by_cases hC : wrap64 ((st.parts (partIdx k cfg.partitions)).current + w) >
        (st.parts (partIdx k cfg.partitions)).max
      · rw [pp_clamp cfg st k w hA hB hC]
        rcases eq_or_ne i (partIdx k cfg.partitions) with hi | hi
        · subst hi
          simpa using h (partIdx k cfg.partitions)
        · simp only [Function.update_noteq hi]
          exact h i
      · rw [pp_accept cfg st k w hA hB hC]
        rcases eq_or_ne i (partIdx k cfg.partitions) with hi | hi
        · subst hi
          simp
        · simp only [Function.update_noteq hi]
          exact h i

lemma processRecord_countsInv (cfg : Config) (st : EngineState) (r : Row)
    (h : CountsInv st) : CountsInv (processRecord cfg st r) := by
  unfold processRecord
  rcases parseGoInt r.1 32 with _ | v
  · exact h
  · rcases parseGoInt r.2 64 with _ | w
    · exact h
    · exact processParsed_countsInv cfg st (toUInt32 v) w h

lemma countsInv_finalState (cfg : Config) (rows : List Row) :
    CountsInv (finalState cfg rows) := by
  refine steps_preserve CountsInv ?_ (steps_finalState cfg rows) ?_
  · intro st r
    exact processRecord_countsInv cfg st r
  · intro i
    simp [initState]

/-! ## Weight-conservation invariant (claim C9) -/

/-- Replacing one entry of an indexed family shifts the sum over
`List.range P` by the difference at that index. -/
lemma map_range_update_sum (P i : Nat) (hi : i < P) (f : Nat → Int) (v : Int) :
    ((List.range P).map (Function.update f i v)).sum = ((List.range P).map f).sum - f i + v := by
  induction P with
  | zero => exact absurd hi (Nat.not_lt_zero i)
  | succ n ih =>
    rw [List.range_succ, List.map_append, List.map_append, List.sum_append, List.sum_append]
    rcases eq_or_ne i n with h | h
    · subst h
      have hmap : (List.range i).map (Function.update f i v) = (List.range i).map f := by
        apply List.map_congr_left
        intro a ha
        exact Function.update_noteq (Nat.ne_of_lt (List.mem_range.mp ha)) v f
      rw [hmap]
      simp only [List.map_cons, List.map_nil, List.sum_cons, List.sum_nil, Function.update_same]
      ring
    · have hlt : i < n := Nat.lt_of_le_of_ne (Nat.lt_succ_iff.mp hi) h
      rw [ih hlt]
      simp only [List.map_cons, List.map_nil, List.sum_cons, List.sum_nil,
        Function.update_noteq (Ne.symm h)]
      ring

/-- Total weight currently held by the partitions, in partition-index
order (matching the slice the Go code iterates over). -/
def sumCurrents (cfg : Config) (st : EngineState) : Int :=
  ((List.range cfg.partitions).map (fun i => (st.parts i).current)).sum

/-- Modulo `2 ^ 64`, every parsed weight is accounted for: it sits in a
partition, or was dropped at an errored/clamping partition, or belongs
to a first-occurrence outlier. -/
def SumInv (cfg : Config) (st : EngineState) : Prop :=
  (sumCurrents cfg st + st.ghostDropped + st.ghostOutlier) % M64 = st.totalIDs % M64

lemma processParsed_sumInv (cfg : Config) (st : EngineState) (k : Nat) (w : Int)
    (hP : 1 ≤ cfg.partitions) (h : SumInv cfg st) : SumInv cfg (processParsed cfg st k w) := by
  unfold SumInv sumCurrents at h ⊢
  by_cases hA : w > cfg.outlier ∧ st.loggedOutliers k = false
  · rw [pp_outlier cfg st k w hA]
    show (((List.range cfg.partitions).map (fun i => (st.parts i).current)).sum +
      st.ghostDropped + (st.ghostOutlier + w)) % M64 = wrap64 (st.totalIDs + w) % M64
    have hw := wrap64_emod (st.totalIDs + w)
    unfold M64 at h hw ⊢
    omega
  · by_cases hB : (st.parts (partIdx k cfg.partitions)).errored = true
    · rw [pp_dropped cfg st k w hA hB]
      show (((List.range cfg.partitions).map (fun i => (st.parts i).current)).sum +
        (st.ghostDropped + w) + st.ghostOutlier) % M64 = wrap64 (st.totalIDs + w) % M64
      have hw := wrap64_emod (st.totalIDs + w)
      unfold M64 at h hw ⊢
      omega
    · by_cases hC : wrap64 ((st.parts (partIdx k cfg.partitions)).current + w) >
        (st.parts (partIdx k cfg.partitions)).max
      · rw [pp_clamp cfg st k w hA hB hC]
        have hfun : (fun i => ((Function.update st.parts (partIdx k cfg.partitions)
            { current := (st.parts (partIdx k cfg.partitions)).current
              max := (st.parts (partIdx k cfg.partitions)).max
              errored := true } i).current)) = (fun i => (st.parts i).current) := by
          funext j
          rcases eq_or_ne j (partIdx k cfg.partitions) with hj | hj
          · subst hj
            rw [Function.update_same]
          · rw [Function.update_noteq hj]
        show (((List.range cfg.partitions).map (fun i => ((Function.update st.parts
          (partIdx k cfg.partitions) _ i).current))).sum +
          (st.ghostDropped + w) + st.ghostOutlier) % M64 = wrap64 (st.totalIDs + w) % M64
        rw [hfun]
        have hw := wrap64_emod (st.totalIDs + w)
        unfold M64 at h hw ⊢
        omega
      · rw [pp_accept cfg st k w hA hB hC]
        have hfun : (fun i => ((Function.update st.parts (partIdx k cfg.partitions)
            { current := wrap64 ((st.parts (partIdx k cfg.partitions)).current + w)
              max := (st.parts (partIdx k cfg.partitions)).max
              errored := false } i).current)) =
            Function.update (fun i => (st.parts i).current) (partIdx k cfg.partitions)
              (wrap64 ((st.parts (partIdx k cfg.partitions)).current + w)) := by
          funext j
          rcases eq_or_ne j (partIdx k cfg.partitions) with hj | hj
          · subst hj
            rw [Function.update_same, Function.update_same]
          · rw [Function.update_noteq hj, Function.update_noteq hj]
        show (((List.range cfg.partitions).map (fun i => ((Function.update st.parts
          (partIdx k cfg.partitions) _ i).current))).sum +
          st.ghostDropped + st.ghostOutlier) % M64 = wrap64 (st.totalIDs + w) % M64
        rw [hfun, map_range_update_sum cfg.partitions (partIdx k cfg.partitions)
          (partIdx_lt k cfg.partitions hP)]
        have hw := wrap64_emod (st.totalIDs + w)
        have hw2 := wrap64_emod ((st.parts (partIdx k cfg.partitions)).current + w)
        unfold M64 at h hw hw2 ⊢
        omega

lemma processRecord_sumInv (cfg : Config) (st : EngineState) (r : Row)
    (hP : 1 ≤ cfg.partitions) (h : SumInv cfg st) : SumInv cfg (processRecord cfg st r) := by
  unfold processRecord
  rcases parseGoInt r.1 32 with _ | v
  · exact h
  · rcases parseGoInt r.2 64 with _ | w
    · exact h
    · exact processParsed_sumInv cfg st (toUInt32 v) w hP h

lemma sumInv_finalState (cfg : Config) (rows : List Row)
    (hP : 1 ≤ cfg.partitions) (hmin : cfg.min = 0) : SumInv cfg (finalState cfg rows) := by
  refine steps_preserve (SumInv cfg) ?_ (steps_finalState cfg rows) ?_
  · intro st r
    exact processRecord_sumInv cfg st r hP
  · unfold SumInv sumCurrents initState
    simp [hmin]

/-! ## Parsing of negative decimal keys (claim C10) -/

lemma parseGoInt_neg (s : String) (ds : List Char) (n : Nat)
    (hs : s.toList = '-' :: ds) (hds : digitsToNat? ds = some n)
    (h2 : (n : Int) ≤ 2 ^ 31) :
    parseGoInt s 32 = some (-(n : Int)) := by
  unfold parseGoInt rangeCheck
  rw [hs]
  simp [hds]
  omega

lemma toUInt32_neg (n : Nat) (h1 : 1 ≤ n) (h2 : n ≤ 2 ^ 31) :
    toUInt32 (-(n : Int)) = 4294967296 - n := by
  unfold toUInt32 M32
  omega

/-- A partition that never admitted a record still holds its initial
floor value. -/
def FloorInv (cfg : Config) (st : EngineState) : Prop :=
  ∀ i, st.ghostAdmitted i = false → (st.parts i).current = cfg.min

lemma processParsed_floorInv (cfg : Config) (st : EngineState) (k : Nat) (w : Int)
    (h : FloorInv cfg st) : FloorInv cfg (processParsed cfg st k w) := by
  intro i
  by_cases hA : w > cfg.outlier ∧ st.loggedOutliers k = false
  · rw [pp_outlier cfg st k w hA]
    exact h i
  · by_cases hB : (st.parts (partIdx k cfg.partitions)).errored = true
    · rw [pp_dropped cfg st k w hA hB]
      exact h i
    · by_cases hC : wrap64 ((st.parts (partIdx k cfg.partitions)).current + w) >
        (st.parts (partIdx k cfg.partitions)).max
      · rw [pp_clamp cfg st k w hA hB hC]
        rcases eq_or_ne i (partIdx k cfg.partitions) with hi | hi
        · subst hi
          intro hadm
          simp only [Function.update_same]
          exact h (partIdx k cfg.partitions) hadm
        · simp only [Function.update_noteq hi]
          exact h i
      · rw [pp_accept cfg st k w hA hB hC]
        rcases eq_or_ne i (partIdx k cfg.partitions) with hi | hi
        · subst hi
          intro hadm
          simp only [Function.update_same] at hadm
          exact absurd hadm (by decide)
        · simp only [Function.update_noteq hi]
          exact h i

lemma processRecord_floorInv (cfg : Config) (st : EngineState) (r : Row)
    (h : FloorInv cfg st) : FloorInv cfg (processRecord cfg st r) := by
  unfold processRecord
  rcases parseGoInt r.1 32 with _ | v
  · exact h
  · rcases parseGoInt r.2 64 with _ | w
    · exact h
    · exact processParsed_floorInv cfg st (toUInt32 v) w h

lemma floorInv_finalState (cfg : Config) (rows : List Row) :
    FloorInv cfg (finalState cfg rows) := by
  refine steps_preserve (FloorInv cfg) ?_ (steps_finalState cfg rows) ?_
  · intro st r
    exact processRecord_floorInv cfg st r
  · intro i _
    rfl

/-! ## Inputs used by concrete runs below -/

/-- An ordinary configuration: one partition, floor 0, ample capacity,
one iteration, outlier threshold 100. -/
def c4cfg : Config := { partitions := 1, max := 100, min := 0, iterations := 1, outlier := 100 }

/-- Outlier threshold 5, so weight-10 records are outliers. -/
def c2cfg : Config := { partitions := 1, max := 1000, min := 0, iterations := 1, outlier := 5 }

/-- The same outlier key appearing twice with an over-threshold weight. -/
def c2rows : List Row := [("1", "10"), ("1", "10")]

/-- Default floor `min = 1` (as in `parseFlags`). -/
def c9cfg : Config := { partitions := 1, max := 100, min := 1, iterations := 1, outlier := 100 }

/-- A single record of weight 2. -/
def c9rows : List Row := [("1", "2")]

/-- Like `c9cfg` but with floor 0. -/
def c9wcfg : Config := { partitions := 1, max := 100, min := 0, iterations := 1, outlier := 100 }

/-- A floor above the capacity; `ProcessCSV` performs no validation of
`min ≤ max`. -/
def c6cfg : Config := { partitions := 1, max := 3, min := 5, iterations := 1, outlier := 100 }

/-- A state whose partitions are all errored at `current = 7`. -/
def c7state : EngineState :=
  { parts := fun _ => { current := 7, max := 5, errored := true }
    totalDocuments := 0
    totalIDs := 0
    partitionCounts := fun _ => 0
    erroredPartitions := 1
    loggedOutliers := fun _ => false
    outlierNotices := []
    ghostAdmitted := fun _ => false
    ghostDropped := 0
    ghostOutlier := 0 }

/-! ## Claims -/

/-- C1: for every 32-bit unsigned key, the implemented `hash` equals the
spec's algorithm `hashSpec`: three words seeded with the golden-ratio,
length, and salt constants, the key folded into `a` by addition, the
seven-step mixing sequence with rotations by 14, 11, 25, 16, 4, 14, 24,
returning `c`, all in unsigned 32-bit wraparound arithmetic. -/
theorem claim1_hash_matches_spec : ∀ k : Nat, hash k = hashSpec k := fun _ => rfl

/-- C2 (code divergence): on the second occurrence of outlier key 1
(weight 10 > threshold 5, key already in the registry), the guard
`count > outlier && !loggedOutliers[documentID]` is false, so the record
falls through to the partition update: partition 0 ends at `current =
10` with `partitionCounts = [10]`, although only one outlier notice was
emitted.  The claim (and the `-outlier` flag documentation, "Documents
with more than this count are logged and skipped") say the record
should have been skipped with no partition update. -/
theorem claim2_repeat_outlier_updates_partition :
    (ProcessCSV c2cfg c2rows).1.partitionCounts = [10] ∧
    (finalState c2cfg c2rows).outlierNotices.length = 1 ∧
    ((finalState c2cfg c2rows).parts 0).current = 10 := by
  decide

/-- C3 counterexample: with the default floor `min = 1` and an empty
record stream, the run's `partitionCounts` is `[0]` (Go's
`make([]int64, n)` zero value) while the final `current` values are
`[1]`, so `partitionCounts` is not the sequence of final `current`
values. -/
theorem claim3_counterexample :
    ¬ ((ProcessCSV c9cfg []).1.partitionCounts =
      (List.range c9cfg.partitions).map (fun i => ((finalState c9cfg []).parts i).current)) := by
  decide

/-- C3 amended: `partitionCounts` has one entry per partition in
partition-index order; entry `i` equals the final `current` of
partition `i` if that partition admitted at least one record during the
run, and the slice's initial zero otherwise (not the floor `min`). -/
theorem claim3_amended (cfg : Config) (rows : List Row) (i : Nat) :
    (ProcessCSV cfg rows).1.partitionCounts =
      (List.range cfg.partitions).map (finalState cfg rows).partitionCounts ∧
    (finalState cfg rows).partitionCounts i =
      (if (finalState cfg rows).ghostAdmitted i = true
       then ((finalState cfg rows).parts i).current else 0) :=
  ⟨rfl, countsInv_finalState cfg rows i⟩

/-- C4: a record whose key or weight fails to parse leaves the run
state entirely unchanged (no counter increments); a record whose both
fields parse bumps `totalDocuments` by one and adds the weight to
`totalIDs` unconditionally — whatever the outlier check or the targeted
partition's errored state later do (int64 arithmetic wraps). -/
theorem claim4_parse_gate_and_counters (cfg : Config) (st : EngineState) (r : Row) :
    ((parseGoInt r.1 32 = none ∨ parseGoInt r.2 64 = none) → processRecord cfg st r = st) ∧
    (∀ i w : Int, parseGoInt r.1 32 = some i → parseGoInt r.2 64 = some w →
      (processRecord cfg st r).totalDocuments = wrap64 (st.totalDocuments + 1) ∧
      (processRecord cfg st r).totalIDs = wrap64 (st.totalIDs + w)) := by
  constructor
  · intro h
    unfold processRecord
    rcases h with h | h
    · rw [h]
    · rcases h1 : parseGoInt r.1 32 with _ | v
      · rfl
      · rw [h]
  · intro i w h1 h2
    unfold processRecord
    rw [h1, h2]
    exact ⟨processParsed_totalDocuments cfg st (toUInt32 i) w,
           processParsed_totalIDs cfg st (toUInt32 i) w⟩

/-- C4 witness: a malformed key leaves the state unchanged, and a
well-formed record `(7, 3)` bumps the counters. -/
theorem claim4_witness :
    processRecord c4cfg (initState c4cfg) ("x", "1") = initState c4cfg ∧
    (processRecord c4cfg (initState c4cfg) ("7", "3")).totalDocuments =
      wrap64 ((initState c4cfg).totalDocuments + 1) ∧
    (processRecord c4cfg (initState c4cfg) ("7", "3")).totalIDs =
      wrap64 ((initState c4cfg).totalIDs + 3) :=
  ⟨(claim4_parse_gate_and_counters c4cfg (initState c4cfg) ("x", "1")).1 (Or.inl (by decide)),
   (claim4_parse_gate_and_counters c4cfg (initState c4cfg) ("7", "3")).2 7 3
     (by decide) (by decide)⟩

/-- C5: for runs that complete (with at least one partition, as the
spec requires), the returned error is classified by the final
`erroredPartitions` count — `none` at 0, the "all partitions" message
when it equals the partition count, the singular message at 1, the
plural counted message strictly between — and the fully populated
`Result` is returned alongside in every case. -/
theorem claim5_error_classification (cfg : Config) (rows : List Row)
    (hP : 1 ≤ cfg.partitions) :
    ((finalState cfg rows).erroredPartitions = 0 → (ProcessCSV cfg rows).2 = none) ∧
    ((finalState cfg rows).erroredPartitions = cfg.partitions →
      (ProcessCSV cfg rows).2 = some ("all partitions have exceeded their maximum value")) ∧
    ((finalState cfg rows).erroredPartitions = 1 →
      (finalState cfg rows).erroredPartitions ≠ cfg.partitions →
      (ProcessCSV cfg rows).2 = some ("1 partition exceeded its maximum value")) ∧
    (0 < (finalState cfg rows).erroredPartitions →
      (finalState cfg rows).erroredPartitions < cfg.partitions →
      (finalState cfg rows).erroredPartitions ≠ 1 →
      (ProcessCSV cfg rows).2 = some (toString (finalState cfg rows).erroredPartitions ++
        " partitions exceeded their maximum value")) ∧
    (ProcessCSV cfg rows).1 = resultOf cfg (finalState cfg rows) := by
  unfold ProcessCSV finalError
  refine ⟨?_, ?_, ?_, ?_, rfl⟩
  · intro h0
    rw [if_neg (by omega), if_neg (by omega), if_neg (by omega)]
  · intro hall
    rw [if_pos hall]
  · intro h1 hne
    rw [if_neg hne, if_pos h1]
  · intro hpos hlt hne1
    rw [if_neg (by omega), if_neg hne1, if_pos hpos]

/-- C5 witness: a run with one partition and no records returns no
error. -/
theorem claim5_witness : (ProcessCSV c4cfg []).2 = none :=
  (claim5_error_classification c4cfg [] (by decide)).1 (by decide)

/-- C6 counterexample: `ProcessCSV` never validates `min ≤ max`; with
`min = 5 > max = 3`, partition 0 is not errored at initialization yet
already violates `current ≤ capacity` (5 > 3). -/
theorem claim6_counterexample :
    ((initState c6cfg).parts 0).errored = false ∧
    ¬ (((initState c6cfg).parts 0).current ≤ ((initState c6cfg).parts 0).max) := by
  decide

/-- C6 amended: provided the configured floor does not exceed the
capacity (`min ≤ max`), at every reachable point of a run every
partition with `errored = false` satisfies `current ≤ capacity`, from
initialization onward. -/
theorem claim6_amended (cfg : Config) (st : EngineState) (hmin : cfg.min ≤ cfg.max)
    (hs : EngineSteps cfg (initState cfg) st) (i : Nat)
    (he : (st.parts i).errored = false) :
    (st.parts i).current ≤ (st.parts i).max := by
  have hinv : PartInv st := by
    refine steps_preserve PartInv ?_ hs ?_
    · intro st0 r
      exact processRecord_partInv cfg st0 r
    · intro j _
      exact hmin
  exact hinv i he

/-- C6 witness: at initialization with floor 0 and capacity 100, the
non-errored partition 0 satisfies the bound. -/
theorem claim6_witness :
    ((initState c4cfg).parts 0).current ≤ ((initState c4cfg).parts 0).max :=
  claim6_amended c4cfg (initState c4cfg) (by decide) (EngineSteps.refl _) 0 (by decide)

/-- C7: once a partition's `errored` flag is true, it remains true and
the partition's `current` value never changes again across any further
processed records (hence across all remaining records and
iterations). -/
theorem claim7_errored_is_sticky (cfg : Config) (st st' : EngineState) (i : Nat)
    (hs : EngineSteps cfg st st') (he : (st.parts i).errored = true) :
    (st'.parts i).errored = true ∧ (st'.parts i).current = (st.parts i).current := by
  have hfrozen : st'.parts i = st.parts i := by
    induction hs with
    | refl => rfl
    | tail r hsteps ih =>
      rw [processRecord_frozen cfg _ r i (by rw [ih]; exact he), ih]
  rw [hfrozen]
  exact ⟨he, rfl⟩

/-- C7 witness: processing one more record over a fully errored state
leaves partition 0 errored with its `current` value 7 intact. -/
theorem claim7_witness :
    ((processRecord c4cfg c7state ("1", "1")).parts 0).errored = true ∧
    ((processRecord c4cfg c7state ("1", "1")).parts 0).current = (c7state.parts 0).current :=
  claim7_errored_is_sticky c4cfg c7state _ 0
    (EngineSteps.tail ("1", "1") (EngineSteps.refl c7state)) (by decide)

/-- C8 counterexample: the claim fails for `partitionCount = 2 ^ 32`, a
legal value of Go's 64-bit `int` that is `≥ 1`: `uint32(partitionCount)`
is 0, so line 193 takes the modulo by zero — a Go runtime division-by-
zero panic, modelled by `partIdx?` returning `none` — rather than
producing an in-bounds index.  So the modulo is not "never taken by
zero" for every `partitionCount ≥ 1`. -/
theorem claim8_counterexample :
    (1 ≤ 4294967296) ∧ partIdx? 0 4294967296 = none := by
  decide

/-- C8 amended: for every key and every partition count `P ≥ 1` whose
`uint32` truncation is nonzero (in particular every `P` in
`[1, 2 ^ 32)`), the modulo at line 193 is taken by a nonzero divisor —
no panic, as witnessed by `partIdx?` returning a value — and the
computed index, which is exactly the engine's `partIdx`, is strictly
below `P`, so the slice access is in bounds. -/
theorem claim8_amended (k P : Nat) (_hP : 1 ≤ P) (hdiv : P % M32 ≠ 0) :
    partIdx? k P = some (partIdx k P) ∧ partIdx k P < P := by
  constructor
  · unfold partIdx? partIdx
    rw [if_neg hdiv]
  · exact lt_of_lt_of_le (Nat.mod_lt _ (Nat.pos_of_ne_zero hdiv)) (Nat.mod_le P M32)

/-- C8 witness: key 1 with 3 partitions — the divisor is 3, no panic,
and the index is in bounds. -/
theorem claim8_witness : partIdx? 1 3 = some (partIdx 1 3) ∧ partIdx 1 3 < 3 :=
  claim8_amended 1 3 (by decide) (by decide)

/-- C9 counterexample: with the default floor `min = 1`, one admitted
record of weight 2 gives `partitionCounts = [3]`, no drops, no
outliers, but `totalIDs = 2`: `3 + 0 ≠ 2 - 0`, refuting the claimed
equation (the floor is counted in `partitionCounts` but not in
`totalIDs`). -/
theorem claim9_counterexample :
    ¬ ((((ProcessCSV c9cfg c9rows).1.partitionCounts).sum +
        (finalState c9cfg c9rows).ghostDropped) % M64 =
      ((finalState c9cfg c9rows).totalIDs - (finalState c9cfg c9rows).ghostOutlier) % M64) := by
  decide

/-- C9 amended: for runs with at least one partition, floor `min = 0`
and `iterations = 1`, the conservation equation holds in the wrapping
int64 arithmetic the engine uses: the sum of `partitionCounts` plus all
weights dropped at errored or clamping partitions is congruent modulo
`2 ^ 64` to `totalIDs` minus the weights of outlier-filtered
(first-occurrence) records; parse-failed records contribute to neither
side. -/
theorem claim9_amended (cfg : Config) (rows : List Row) (hP : 1 ≤ cfg.partitions)
    (hmin : cfg.min = 0) (_hiter : cfg.iterations = 1) :
    (((ProcessCSV cfg rows).1.partitionCounts).sum +
      (finalState cfg rows).ghostDropped) % M64 =
    ((finalState cfg rows).totalIDs - (finalState cfg rows).ghostOutlier) % M64 := by
  have hsum := sumInv_finalState cfg rows hP hmin
  unfold SumInv at hsum
  have hcounts : (ProcessCSV cfg rows).1.partitionCounts =
      (List.range cfg.partitions).map (fun i => ((finalState cfg rows).parts i).current) := by
    show (List.range cfg.partitions).map (finalState cfg rows).partitionCounts = _
    apply List.map_congr_left
    intro a _
    rw [countsInv_finalState cfg rows a]
    cases hadm : (finalState cfg rows).ghostAdmitted a with
    | true => simp
    | false =>
      rw [if_neg (by simp)]
      rw [floorInv_finalState cfg rows a hadm, hmin]
  unfold sumCurrents at hsum
  rw [hcounts]
  unfold M64 at hsum ⊢
  omega

/-- C9 witness: with floor 0, one record of weight 2 satisfies the
conservation equation (`2 + 0 ≡ 2 - 0`). -/
theorem claim9_witness :
    (((ProcessCSV c9wcfg c9rows).1.partitionCounts).sum +
      (finalState c9wcfg c9rows).ghostDropped) % M64 =
    ((finalState c9wcfg c9rows).totalIDs - (finalState c9wcfg c9rows).ghostOutlier) % M64 :=
  claim9_amended c9wcfg c9rows (by decide) rfl rfl

/-- C10: a key field that is negative decimal text `-n` with
`1 ≤ n ≤ 2^31` is not a parse failure: `strconv.ParseInt(…, 10, 32)`
accepts it, `uint32` conversion reinterprets it as its two's-complement
value `2^32 - n` (so "-1" becomes 4294967295), and the record is then
processed exactly like any record with that key — in particular the
counters are bumped. -/
theorem claim10_negative_keys_admitted (cfg : Config) (st : EngineState)
    (s t : String) (ds : List Char) (n : Nat) (w : Int)
    (hs : s.toList = '-' :: ds) (hds : digitsToNat? ds = some n)
    (h1 : 1 ≤ n) (h2 : n ≤ 2 ^ 31) (ht : parseGoInt t 64 = some w) :
    parseGoInt s 32 = some (-(n : Int)) ∧
    toUInt32 (-(n : Int)) = 4294967296 - n ∧
    processRecord cfg st (s, t) = processParsed cfg st (4294967296 - n) w ∧
    (processRecord cfg st (s, t)).totalDocuments = wrap64 (st.totalDocuments + 1) ∧
    (processRecord cfg st (s, t)).totalIDs = wrap64 (st.totalIDs + w) := by
  have hp : parseGoInt s 32 = some (-(n : Int)) := parseGoInt_neg s ds n hs hds (by omega)
  have hu : toUInt32 (-(n : Int)) = 4294967296 - n := toUInt32_neg n h1 h2
  have hpr : processRecord cfg st (s, t) = processParsed cfg st (4294967296 - n) w := by
    unfold processRecord
    simp only [hp, hu, ht]
  refine ⟨hp, hu, hpr, ?_, ?_⟩
  · rw [hpr]
    exact processParsed_totalDocuments cfg st (4294967296 - n) w
  · rw [hpr]
    exact processParsed_totalIDs cfg st (4294967296 - n) w

/-- C10 witness: the row `("-1", "5")` parses, the key becomes
4294967295, and the counters are bumped. -/
theorem claim10_witness :
    parseGoInt "-1" 32 = some (-(1 : Int)) ∧
    toUInt32 (-(1 : Int)) = 4294967296 - 1 ∧
    processRecord c4cfg (initState c4cfg) ("-1", "5") =
      processParsed c4cfg (initState c4cfg) (4294967296 - 1) 5 ∧
    (processRecord c4cfg (initState c4cfg) ("-1", "5")).totalDocuments =
      wrap64 ((initState c4cfg).totalDocuments + 1) ∧
    (processRecord c4cfg (initState c4cfg) ("-1", "5")).totalIDs =
      wrap64 ((initState c4cfg).totalIDs + 5) :=
  claim10_negative_keys_admitted c4cfg (initState c4cfg) "-1" "5" ['1'] 1 5
    (by decide) (by decide) (by decide) (by decide) (by decide)

end IdSim
